import Mathlib

/-!
Verification development for a remote-control-navigable media player
(React/TypeScript sources: App.tsx, components/Player.tsx).

Each definition is a shallow embedding of a function or effect of the
source code; machine state is passed explicitly, asynchronous effects are
modelled as atomic events separated at the source's `await` suspension
points, and JS numbers are modelled as rationals.
-/

namespace MediaPlayer

/-! ## Overlay panel state machine (Player.tsx, Controls onSettingsClick / onSubtitlesClick)

Source (Player.tsx lines 763-764, 781, 787):
  onSettingsClick:  setShowSettingsPanel(p => !p); setShowSubtitlesPanel(false)
  onSubtitlesClick: setShowSubtitlesPanel(p => !p); setShowSettingsPanel(false)
  SubtitlesPanel onClose: setShowSubtitlesPanel(false)
  SettingsPanel onClose:  setShowSettingsPanel(false)
-/

structure PanelState where
  showSettingsPanel : Bool
  showSubtitlesPanel : Bool
  deriving DecidableEq, Repr

/-- Initial overlay state: both side panels closed (Player.tsx lines 355-356). -/
def initPanelState : PanelState := ⟨false, false⟩

inductive PanelAction
  | settingsClick
  | subtitlesClick
  | closeSettings
  | closeSubtitles
  deriving DecidableEq, Repr

/-- One panel command, exactly as wired in the Controls / panel components. -/
def panelStep (st : PanelState) : PanelAction → PanelState
  | .settingsClick => ⟨!st.showSettingsPanel, false⟩
  | .subtitlesClick => ⟨false, !st.showSubtitlesPanel⟩
  | .closeSettings => ⟨false, st.showSubtitlesPanel⟩
  | .closeSubtitles => ⟨st.showSettingsPanel, false⟩

/-- Run a sequence of panel commands from a state. -/
def runPanels (acts : List PanelAction) (st : PanelState) : PanelState :=
  acts.foldl panelStep st

/-! ## Progress-bar seek (Player.tsx lines 640-645)

Source:
  const seek = (offset) => { ... video.currentTime =
    Math.max(0, Math.min(video.duration, video.currentTime + offset)); }
dispatched with offset +5 for ArrowRight and -5 for ArrowLeft when the
progress bar is the focused element (lines 673-674, 690-691).
-/

/-- New playback position produced by the seek helper. -/
def seek (duration currentTime offset : ℚ) : ℚ :=
  max 0 (min duration (currentTime + offset))

inductive HDir
  | left
  | right
  deriving DecidableEq, Repr

/-- Offset the key handler passes to seek for a horizontal key on the
progress bar. -/
def progressSeekOffset : HDir → ℚ
  | .right => 5
  | .left => -5

/-- Position after an ArrowLeft/ArrowRight press focused on the progress bar. -/
def progressSeek (d : HDir) (duration currentTime : ℚ) : ℚ :=
  seek duration currentTime (progressSeekOffset d)

/-! ## Default caption selection (Player.tsx lines 550-555)

Source:
  useEffect(() => {
    if (userLanguage === 'ar' && vttTracks.length > 0) {
      const arabicTrack = vttTracks.find(track => track.lang === 'ar');
      setActiveSubtitleLang(arabicTrack ? 'ar' : null);
    }
  }, [vttTracks, userLanguage]);
-/

structure VttTrack where
  lang : String
  url : String
  label : String
  deriving DecidableEq, Repr

/-- Value of activeSubtitleLang after the default-selection effect runs,
given the user locale, the freshly produced converted-track batch, and the
previously selected caption language. -/
def defaultSubtitleSelection (userLanguage : String) (vttTracks : List VttTrack)
    (current : Option String) : Option String :=
  if userLanguage = "ar" ∧ vttTracks ≠ [] then
    match vttTracks.find? (fun track => track.lang = "ar") with
    | some _ => some "ar"
    | none => none
  else current

/-! ## Spatial focus navigation (App.tsx handleKeyDown, lines 145-209)

Source loop:
  for (const candidate of focusables) {
    if (candidate === currentElement) continue;
    const dx = centerX(candidate) - centerX(current);
    const dy = centerY(candidate) - centerY(current);
    switch (e.key) {
      case 'ArrowRight': if (dx > 0) { distance = Math.abs(dy)*2 + dx; ... }
      case 'ArrowLeft':  if (dx < 0) { distance = Math.abs(dy)*2 + Math.abs(dx); ... }
      case 'ArrowDown':  if (dy > 0) { distance = Math.abs(dx)*2 + dy; ... }
      case 'ArrowUp':    if (dy < 0) { distance = Math.abs(dx)*2 + Math.abs(dy); ... }
    }
  }
keeping the candidate whenever distance < minDistance (strict), so the
first candidate in document order wins ties.
-/

inductive Dir
  | up
  | down
  | left
  | right
  deriving DecidableEq, Repr

structure Rect where
  left : ℚ
  top : ℚ
  width : ℚ
  height : ℚ
  deriving DecidableEq, Repr

def Rect.centerX (r : Rect) : ℚ := r.left + r.width / 2

def Rect.centerY (r : Rect) : ℚ := r.top + r.height / 2

/-- A focusable element: an identity plus its bounding rectangle. -/
structure Elem where
  id : ℕ
  rect : Rect
  deriving DecidableEq, Repr

/-- Rectangle-center delta of a candidate relative to the current element. -/
def deltaX (cur cand : Elem) : ℚ := cand.rect.centerX - cur.rect.centerX

def deltaY (cur cand : Elem) : ℚ := cand.rect.centerY - cur.rect.centerY

/-- Half-plane filter of the switch statement: candidates strictly in the
direction of travel. -/
def halfPlane (d : Dir) (dx dy : ℚ) : Bool :=
  match d with
  | .right => decide (0 < dx)
  | .left => decide (dx < 0)
  | .down => decide (0 < dy)
  | .up => decide (dy < 0)

/-- Directional distance of the switch statement: perpendicular displacement
doubled plus along-axis displacement. -/
def navDistance (d : Dir) (dx dy : ℚ) : ℚ :=
  match d with
  | .right => |dy| * 2 + dx
  | .left => |dy| * 2 + |dx|
  | .down => |dx| * 2 + dy
  | .up => |dx| * 2 + |dy|

def navCost (d : Dir) (cur cand : Elem) : ℚ :=
  navDistance d (deltaX cur cand) (deltaY cur cand)

/-- One iteration of the candidate loop, carrying (bestCandidate, minDistance);
none models minDistance = Infinity with no best candidate. -/
def navStep (d : Dir) (cur : Elem) (acc : Option (Elem × ℚ)) (c : Elem) :
    Option (Elem × ℚ) :=
  if c = cur then acc
  else
    let dx := deltaX cur c
    let dy := deltaY cur c
    if halfPlane d dx dy then
      let dist := navDistance d dx dy
      match acc with
      | none => some (c, dist)
      | some (b, m) => if dist < m then some (c, dist) else some (b, m)
    else acc

/-- The candidate the key handler focuses, or none (no-op) when the loop
finds no candidate in the half-plane. -/
def bestCandidate (d : Dir) (cur : Elem) (focusables : List Elem) : Option Elem :=
  (focusables.foldl (navStep d cur) none).map Prod.fst

/-- Reference filter, from the spec text: every other candidate lying in the
direction's half-plane. -/
def navCandidate (d : Dir) (cur : Elem) (c : Elem) : Bool :=
  c ≠ cur && halfPlane d (deltaX cur c) (deltaY cur c)

/-- Reference algorithm, from the spec text: filter by half-plane, then take
the minimum-cost candidate, ties resolving to the candidate that comes first
in document order (List.argmin returns the first minimiser). -/
def bestCandidateRef (d : Dir) (cur : Elem) (focusables : List Elem) : Option Elem :=
  (focusables.filter (navCandidate d cur)).argmin (navCost d cur)

/-- Tie-break example elements of the spec: A at rect(100,100,50,50),
B at rect(200,100,50,50), C at rect(160,140,50,50). -/
def elemA : Elem := ⟨0, ⟨100, 100, 50, 50⟩⟩

def elemB : Elem := ⟨1, ⟨200, 100, 50, 50⟩⟩

def elemC : Elem := ⟨2, ⟨160, 140, 50, 50⟩⟩

/-! ## Triple-Enter cursor mode (App.tsx handleKeyDown, lines 86-121)

Source order matters: the Enter-counting block (lines 88-103) runs first on
every Enter press — clearTimeout, increment, arm on the 3rd, else restart the
500 ms timer — and only then is the armed-cursor branch (lines 105-121)
evaluated against the pre-press value of showTvCursor (a closure over the
render-time state). While armed: an arrow key disarms and falls through to
spatial navigation; Enter hit-tests document.elementFromPoint at the stored
cursor position, clicks the topmost element, pulses the click effect for
400 ms, and returns; any other key returns.
-/

inductive Key
  | enter
  | arrowUp
  | arrowDown
  | arrowLeft
  | arrowRight
  | other
  deriving DecidableEq, Repr

def Key.isArrow : Key → Bool
  | .arrowUp => true
  | .arrowDown => true
  | .arrowLeft => true
  | .arrowRight => true
  | _ => false

/-- Application-shell key-handling state: the triple-Enter press counter with
its pending 500 ms reset deadline, the cursor-mode flag, the stored cursor
position, and the click-effect pulse with its pending 400 ms deadline. -/
structure AppKeyState where
  enterPressCount : ℕ
  showTvCursor : Bool
  enterDeadline : Option ℚ
  cursorX : ℚ
  cursorY : ℚ
  clickEffect : Bool
  clickDeadline : Option ℚ
  deriving DecidableEq, Repr

/-- Observable effects of one keypress. -/
structure KeyEffects where
  hitTestX : Option ℚ
  hitTestY : Option ℚ
  activatedTopmost : Bool
  clickPulseMs : Option ℕ
  spatialNavRan : Bool
  deriving DecidableEq, Repr

def noEffects : KeyEffects := ⟨none, none, false, none, false⟩

/-- Single-shot 500 ms reset timer: when its deadline has passed, the
enter-press counter resets to 0 (App.tsx lines 99-101). -/
def fireEnterTimer (now : ℚ) (st : AppKeyState) : AppKeyState :=
  match st.enterDeadline with
  | some d => if d ≤ now then { st with enterPressCount := 0, enterDeadline := none } else st
  | none => st

/-- Single-shot 400 ms click-effect timer (App.tsx line 113). -/
def fireClickTimer (now : ℚ) (st : AppKeyState) : AppKeyState :=
  match st.clickDeadline with
  | some d => if d ≤ now then { st with clickEffect := false, clickDeadline := none } else st
  | none => st

/-- Elapse time to the instant of the next event, firing any due single-shot
timers first. -/
def elapse (now : ℚ) (st : AppKeyState) : AppKeyState :=
  fireClickTimer now (fireEnterTimer now st)

/-- The Enter-counting block (App.tsx lines 88-103): clear the pending reset
timer, increment, arm the cursor and reset on the third press, otherwise
restart the 500 ms reset timer. -/
def enterCountStep (now : ℚ) (st : AppKeyState) : AppKeyState :=
  if st.enterPressCount + 1 = 3 then
    { st with showTvCursor := true, enterPressCount := 0, enterDeadline := none }
  else
    { st with enterPressCount := st.enterPressCount + 1, enterDeadline := some (now + 500) }

/-- The whole handleKeyDown body for one keypress (App.tsx lines 86-209),
with the spatial-navigation tail abstracted to the spatialNavRan effect
(its selection logic is bestCandidate above). -/
def keyDown (now : ℚ) (k : Key) (st : AppKeyState) : AppKeyState × KeyEffects :=
  let s1 := if k = .enter then enterCountStep now st else st
  if st.showTvCursor then
    if k.isArrow then
      ({ s1 with showTvCursor := false }, { noEffects with spatialNavRan := true })
    else if k = .enter then
      ({ s1 with clickEffect := true, clickDeadline := some (now + 400) },
        ⟨some st.cursorX, some st.cursorY, true, some 400, false⟩)
    else (s1, noEffects)
  else
    if k.isArrow then (s1, { noEffects with spatialNavRan := true })
    else (s1, noEffects)

/-- A keypress arriving at a given time: due timers fire, then the handler runs. -/
def dispatchKey (now : ℚ) (k : Key) (st : AppKeyState) : AppKeyState × KeyEffects :=
  keyDown now k (elapse now st)

/-- Initial application-shell state: counter 0, cursor hidden, no timers
(App.tsx lines 80-84); the cursor starts at the window center. -/
def initAppKeyState (x y : ℚ) : AppKeyState := ⟨0, false, none, x, y, false, none⟩

/-- Fold a sequence of timestamped Enter presses through the handler. -/
def runEnters (ts : List ℚ) (st : AppKeyState) : AppKeyState :=
  ts.foldl (fun s t => (dispatchKey t .enter s).1) st

/-- Reference predicate, from the spec text: some three consecutive presses
have both inter-press gaps strictly below 500 ms. -/
def hasDenseTriple : List ℚ → Bool
  | t1 :: t2 :: t3 :: rest =>
      (decide (t2 - t1 < 500) && decide (t3 - t2 < 500)) || hasDenseTriple (t2 :: t3 :: rest)
  | _ => false

/-- Whether continuing with presses at the given times arms the cursor, when
the counter currently reads c and the last counted press was at time lt. -/
def armsFrom (c : ℕ) (lt : ℚ) : List ℚ → Bool
  | [] => false
  | t :: rest =>
      let cNew := if c ≠ 0 ∧ t - lt < 500 then c + 1 else 1
      if cNew = 3 then true else armsFrom cNew t rest

/-- State used by C5: cursor mode armed, counter 0, no pending timers,
cursor stored at (10, 20). -/
def armedExampleState : AppKeyState := ⟨0, true, none, 10, 20, false, none⟩

/-! ## Source resolution sequence (Player.tsx Effect 1, lines 398-443)

Source (no initialStreamUrl):
  const fetchData = async () => {
    const fetchId = ++fetchIdRef.current;
    onStreamFetchStateChange(true); setIsBuffering(true);
    setActiveStreamUrl(null); setSubtitles([]); setVttTracks([]);
    try {
      const recsData = await fetchFromTMDB(...);
      setRecommendations(recsData.results.filter(m => m.backdrop_path));  -- no epoch guard
      const data = await fetchStreamUrl(...);
      if (fetchIdRef.current !== fetchId) return;
      if (data.links && data.links.length > 0) {
        setStreamLinks(..); setActiveStreamUrl(..); setActiveQuality(..);
        if (data.subtitles) setSubtitles(..); onProviderSelected(..);
      } else throw new Error(t('noStreamLinks'));
    } catch (e) { if (fetchIdRef.current === fetchId) setToast(..); }
    finally { if (fetchIdRef.current === fetchId) onStreamFetchStateChange(false); }
  };
Each await is a suspension point; the synchronous continuation after each
await is one atomic event below.
-/

structure StreamLink where
  url : String
  quality : String
  deriving DecidableEq, Repr

structure SubtitleDesc where
  language : String
  url : String
  display : String
  deriving DecidableEq, Repr

/-- A recommended item: identity plus backdrop_path truthiness (the filter
keeps only items with a backdrop). -/
structure Movie where
  id : ℕ
  hasBackdrop : Bool
  deriving DecidableEq, Repr

/-- Player session state touched by Effect 1, with logs for the external
callbacks (onStreamFetchStateChange, onProviderSelected) and toasts. -/
structure SessionState where
  fetchCounter : ℕ
  streamLinks : List StreamLink
  activeStreamUrl : Option String
  activeQuality : Option String
  subtitles : List SubtitleDesc
  vttTracks : List VttTrack
  recommendations : List Movie
  toasts : List String
  isBuffering : Bool
  fetchStateLog : List Bool
  providerLog : List String
  deriving DecidableEq, Repr

/-- Initial session state (Player.tsx lines 337-349, no initialStreamUrl). -/
def initSessionState : SessionState :=
  ⟨0, [], none, none, [], [], [], [], true, [], []⟩

/-- Localized message thrown on an empty link list. -/
def noStreamLinksMsg : String := "noStreamLinks"

/-- Atomic events of one fetchData run: its synchronous prologue, the
continuation after the recommendations await (success or failure), and the
continuation after the source-resolution await (success or failure), each
tagged with the run's captured fetchId epoch. -/
inductive FetchEvent
  | start
  | recsOk (epoch : ℕ) (recs : List Movie)
  | recsFail (epoch : ℕ) (msg : String)
  | streamOk (epoch : ℕ) (links : List StreamLink) (subs : List SubtitleDesc)
      (provider : String)
  | streamFail (epoch : ℕ) (msg : String)
  deriving DecidableEq, Repr

def applyFetchEvent : FetchEvent → SessionState → SessionState
  | .start, st =>
      { st with
        fetchCounter := st.fetchCounter + 1,
        fetchStateLog := st.fetchStateLog ++ [true],
        isBuffering := true,
        activeStreamUrl := none,
        subtitles := [],
        vttTracks := [] }
  | .recsOk _ recs, st =>
      { st with recommendations := recs.filter (·.hasBackdrop) }
  | .recsFail e msg, st =>
      if st.fetchCounter = e then
        { st with
          toasts := st.toasts ++ [msg],
          fetchStateLog := st.fetchStateLog ++ [false] }
      else st
  | .streamOk e links subs prov, st =>
      if st.fetchCounter = e then
        match links with
        | [] =>
            { st with
              toasts := st.toasts ++ [noStreamLinksMsg],
              fetchStateLog := st.fetchStateLog ++ [false] }
        | l :: _ =>
            { st with
              streamLinks := links,
              activeStreamUrl := some l.url,
              activeQuality := some l.quality,
              subtitles := subs,
              providerLog := st.providerLog ++ [prov],
              fetchStateLog := st.fetchStateLog ++ [false] }
      else st
  | .streamFail e msg, st =>
      if st.fetchCounter = e then
        { st with
          toasts := st.toasts ++ [msg],
          fetchStateLog := st.fetchStateLog ++ [false] }
      else st

/-- Run an interleaving of fetch events. -/
def runFetch (evs : List FetchEvent) (st : SessionState) : SessionState :=
  evs.foldl (fun s e => applyFetchEvent e s) st

/-- Complete zero-links resolution run with no interference. -/
def zeroLinksTrace : SessionState :=
  runFetch [.start, .recsOk 1 [], .streamOk 1 [] [] "pv"] initSessionState

/-! ## Quality switching and playback attach (Player.tsx lines 446-490)

Quality-change effect:
  if (!activeQuality || !videoRef.current || streamLinks.length === 0) return;
  const newLink = streamLinks.find(link => link.quality === activeQuality);
  if (newLink && newLink.url !== activeStreamUrl) {
    timeOnSwitchRef.current = videoRef.current.currentTime;
    setActiveStreamUrl(newLink.url);
  }
Playback attach effect (on activeStreamUrl change):
  if (!video || !activeStreamUrl) { setIsBuffering(true); return; }
  const savedTime = timeOnSwitchRef.current > 0 ? timeOnSwitchRef.current : (initialTime || 0);
  timeOnSwitchRef.current = 0;
  ... on MANIFEST_PARSED / loadeddata: video.currentTime = savedTime; play();
-/

structure QState where
  streamLinks : List StreamLink
  activeStreamUrl : Option String
  activeQuality : Option String
  timeOnSwitch : ℚ
  videoTime : ℚ
  videoPresent : Bool
  deriving DecidableEq, Repr

/-- Quality-change effect body; a quality of none or "" is falsy in the
source guard. -/
def qualityChangeEffect (st : QState) : QState :=
  match st.activeQuality with
  | none => st
  | some q =>
      if q = "" ∨ st.videoPresent = false ∨ st.streamLinks = [] then st
      else
        match st.streamLinks.find? (fun link => link.quality = q) with
        | none => st
        | some newLink =>
            if some newLink.url ≠ st.activeStreamUrl then
              { st with
                timeOnSwitch := st.videoTime,
                activeStreamUrl := some newLink.url }
            else st

/-- Playback attach effect: consume timeOnSwitch (falling back to the
externally supplied initial time when it is 0), clear it, and seek there. -/
def attachEffect (initialTime : ℚ) (st : QState) : QState :=
  if st.videoPresent = false then st
  else
    match st.activeStreamUrl with
    | none => st
    | some _ =>
        let savedTime := if st.timeOnSwitch > 0 then st.timeOnSwitch else initialTime
        { st with timeOnSwitch := 0, videoTime := savedTime }

/-- A user quality selection: set activeQuality, run the quality-change
effect, and run the attach effect when the active URL actually changed. -/
def changeQuality (initialTime : ℚ) (q : String) (st : QState) : QState :=
  let st1 := { st with activeQuality := some q }
  let st2 := qualityChangeEffect st1
  if st2.activeStreamUrl ≠ st1.activeStreamUrl then attachEffect initialTime st2 else st2

/-- Example for C7: playing "u1" at quality "720p", position 0. -/
def qExampleState : QState :=
  ⟨[⟨"u1", "720p"⟩, ⟨"u2", "1080p"⟩], some "u1", some "720p", 0, 0, true⟩

/-! ## Subtitle processing and object-URL lifecycle (Player.tsx Effect 3, lines 493-523)

Source:
  useEffect(() => {
    let active = true;
    let createdUrls = [];
    const processSubtitles = async () => {
      ...
      for (const sub of subtitles) {
        try {
          const res = await fetch(sub.url);
          if (!res.ok || !active) continue;
          const srtText = await res.text();     -- active NOT re-checked after this await
          const vttUrl = processSrtToVtt(srtText);   -- creates and records an object URL
          newTracks.push({ lang: sub.language, url: vttUrl, label: sub.display });
        } catch (e) { ... }
      }
      if (active) setVttTracks(newTracks);
    };
    if (subtitles.length > 0) processSubtitles(); else setVttTracks([]);
    return () => { active = false; createdUrls.forEach(url => URL.revokeObjectURL(url)); };
  }, [subtitles]);
-/

inductive SubPhase
  | beforeFetch
  | afterFetch
  | finished
  deriving DecidableEq, Repr

/-- One processSubtitles invocation (one effect generation): its closure
variables (active, createdUrls, newTracks), the descriptors still to
process, the suspension point it sits at, and whether its cleanup ran. -/
structure SubRun where
  active : Bool
  createdUrls : List ℕ
  newTracks : List (String × ℕ)
  remaining : List SubtitleDesc
  phase : SubPhase
  cleaned : Bool
  deriving DecidableEq, Repr

/-- Global object-URL bookkeeping plus all effect generations, most recent
first. live holds created object URLs not yet revoked; revokedLog appends
one entry per revokeObjectURL call. -/
structure SubSys where
  nextUrl : ℕ
  live : List ℕ
  revokedLog : List ℕ
  runs : List SubRun
  vttTracks : List (String × ℕ)
  deriving DecidableEq, Repr

def initSubSys : SubSys := ⟨0, [], [], [], []⟩

/-- Effect cleanup of the current (most recent) generation: set its active
flag false and revoke every URL in its createdUrls array, once. -/
def cleanupLast (sys : SubSys) : SubSys :=
  match sys.runs with
  | [] => sys
  | r :: rest =>
      if r.cleaned then sys
      else
        { sys with
          runs := { r with active := false, cleaned := true } :: rest,
          live := sys.live.filter (fun u => ¬u ∈ r.createdUrls),
          revokedLog := sys.revokedLog ++ r.createdUrls }

/-- A subtitle-descriptor-list change: the previous generation's cleanup
runs, then the new effect body starts (processSubtitles when nonempty, else
setVttTracks([])). -/
def setSubs (subs : List SubtitleDesc) (sys : SubSys) : SubSys :=
  let sys2 := cleanupLast sys
  match subs with
  | [] =>
      { sys2 with
        vttTracks := [],
        runs := ⟨true, [], [], [], .finished, false⟩ :: sys2.runs }
  | _ =>
      { sys2 with runs := ⟨true, [], [], subs, .beforeFetch, false⟩ :: sys2.runs }

/-- One asynchronous completion inside generation i (index into runs):
a fetch resolving (with the given ok flag) or a text body resolving, which
unconditionally creates an object URL — the source only checks the active
flag before the text await, not after. -/
def advanceRun (i : ℕ) (fetchOk : Bool) (sys : SubSys) : SubSys :=
  match sys.runs.get? i with
  | none => sys
  | some r =>
      match r.phase with
      | .finished => sys
      | .beforeFetch =>
          match r.remaining with
          | [] =>
              let sys2 := if r.active then { sys with vttTracks := r.newTracks } else sys
              { sys2 with runs := sys2.runs.set i { r with phase := .finished } }
          | _ :: rest =>
              if fetchOk = false ∨ r.active = false then
                { sys with runs := sys.runs.set i { r with remaining := rest } }
              else
                { sys with runs := sys.runs.set i { r with phase := .afterFetch } }
      | .afterFetch =>
          match r.remaining with
          | [] => sys
          | d :: rest =>
              { sys with
                nextUrl := sys.nextUrl + 1,
                live := sys.live ++ [sys.nextUrl],
                runs := sys.runs.set i
                  { r with
                    createdUrls := r.createdUrls ++ [sys.nextUrl],
                    newTracks := r.newTracks ++ [(d.language, sys.nextUrl)],
                    remaining := rest,
                    phase := .beforeFetch } }

/-- Interleaving exhibiting the leak: one descriptor; its fetch succeeds
while the generation is current; the descriptor list is superseded by []
while the text body is still being read; the text then resolves and creates
an object URL after the generation's cleanup has already run. -/
def leakTrace : SubSys :=
  advanceRun 1 true
    (advanceRun 1 true
      (setSubs []
        (advanceRun 0 true
          (setSubs [⟨"en", "su", "English"⟩] initSubSys))))

end MediaPlayer

namespace MediaPlayer

/-! ### C2: spatial navigation refines the reference algorithm -/

theorem navStep_not_candidate (d : Dir) (cur : Elem) (acc : Option (Elem × ℚ))
    (c : Elem) (h : navCandidate d cur c = false) : navStep d cur acc c = acc := by
  simp only [navCandidate, Bool.and_eq_false_iff, ne_eq, Bool.not_eq_true,
    decide_eq_false_iff_not, not_not] at h
  rcases h with h | h
  · simp [navStep, h]
  · by_cases hc : c = cur
    · simp [navStep, hc]
    · simp [navStep, hc, h]

theorem navStep_candidate (d : Dir) (cur : Elem) (acc : Option Elem) (c : Elem)
    (h : navCandidate d cur c = true) :
    navStep d cur (acc.map fun b => (b, navCost d cur b)) c =
      (List.argAux (fun b x => navCost d cur b < navCost d cur x) acc c).map
        fun b => (b, navCost d cur b) := by
  simp only [navCandidate, Bool.and_eq_true, ne_eq, decide_eq_true_eq,
    Bool.not_eq_true'] at h
  obtain ⟨hne, hhp⟩ := h
  have hne' : c ≠ cur := by
    intro hEq
    rw [hEq] at hne
    simp at hne
  cases acc with
  | none => simp [navStep, hne', hhp, List.argAux, navCost]
  | some b =>
      simp only [navStep, if_neg hne', hhp, if_true, List.argAux, navCost,
        Option.map_some']
      split_ifs <;> rfl

theorem navFold_eq_argmin_fold (d : Dir) (cur : Elem) (focusables : List Elem)
    (acc : Option Elem) :
    focusables.foldl (navStep d cur) (acc.map fun b => (b, navCost d cur b)) =
      ((focusables.filter (navCandidate d cur)).foldl
          (List.argAux fun b x => navCost d cur b < navCost d cur x) acc).map
        fun b => (b, navCost d cur b) := by
  induction focusables generalizing acc with
  | nil => rfl
  | cons x rest ih =>
      by_cases hx : navCandidate d cur x = true
      · rw [List.foldl_cons, navStep_candidate d cur acc x hx, ih,
          List.filter_cons_of_pos hx, List.foldl_cons]
      · rw [List.foldl_cons,
          navStep_not_candidate d cur _ x (by simpa using hx), ih,
          List.filter_cons_of_neg (by simpa using hx)]

/-- C2: for every direction, focused element and candidate snapshot, the key
handler's loop selects exactly the candidate of the reference algorithm
(half-plane filter on center deltas, cost = 2 * perpendicular + along-axis
displacement, minimum cost, ties to the first in document order); ArrowRight
from A at rect(100,100,50,50) over candidates B at rect(200,100,50,50) and
C at rect(160,140,50,50) selects B; and the keypress is a no-op exactly when
no candidate passes the half-plane filter. -/
theorem spatial_navigation_correct :
    (∀ (d : Dir) (cur : Elem) (focusables : List Elem),
        bestCandidate d cur focusables = bestCandidateRef d cur focusables) ∧
    bestCandidate .right elemA [elemA, elemB, elemC] = some elemB ∧
    (∀ (d : Dir) (cur : Elem) (focusables : List Elem),
        bestCandidate d cur focusables = none ↔
          focusables.filter (navCandidate d cur) = []) := by
  have key : ∀ (d : Dir) (cur : Elem) (focusables : List Elem),
      bestCandidate d cur focusables = bestCandidateRef d cur focusables := by
    intro d cur focusables
    have h : focusables.foldl (navStep d cur) none =
        ((focusables.filter (navCandidate d cur)).foldl
            (List.argAux fun b x => navCost d cur b < navCost d cur x) none).map
          fun b => (b, navCost d cur b) := by
      simpa using navFold_eq_argmin_fold d cur focusables none
    rw [bestCandidate, h, bestCandidateRef, List.argmin, Option.map_map]
    cases (focusables.filter (navCandidate d cur)).foldl
        (List.argAux fun b x => navCost d cur b < navCost d cur x) none <;> rfl
  refine ⟨key, ?_, ?_⟩
  · norm_num [bestCandidate, navStep, elemA, elemB, elemC, deltaX, deltaY,
      Rect.centerX, Rect.centerY, halfPlane, navDistance, Elem.mk.injEq,
      Rect.mk.injEq, abs]
  · intro d cur focusables
    rw [key, bestCandidateRef, List.argmin_eq_none]

/-! ### C9: panel mutual exclusion -/

/-- Panel mutual-exclusion invariant: not both panels open. -/
def panelsExclusive (st : PanelState) : Prop :=
  ¬(st.showSettingsPanel = true ∧ st.showSubtitlesPanel = true)

theorem panelStep_preserves_exclusive (st : PanelState) (a : PanelAction) :
    panelsExclusive st → panelsExclusive (panelStep st a) := by
  cases a <;> simp [panelStep, panelsExclusive]

theorem runPanels_exclusive (acts : List PanelAction) (st : PanelState)
    (h : panelsExclusive st) : panelsExclusive (runPanels acts st) := by
  induction acts generalizing st with
  | nil => exact h
  | cons a rest ih => exact ih _ (panelStep_preserves_exclusive st a h)

/-- C9: in every reachable overlay state at most one of the Settings and
Subtitles panels is open; the settings-click command closes the Subtitles
panel in the same step, and the subtitles-click command closes the
Settings panel in the same step, after any sequence of panel commands. -/
theorem panels_mutually_exclusive :
    (∀ acts : List PanelAction, panelsExclusive (runPanels acts initPanelState)) ∧
    (∀ st : PanelState, (panelStep st .settingsClick).showSubtitlesPanel = false) ∧
    (∀ st : PanelState, (panelStep st .subtitlesClick).showSettingsPanel = false) := by
  refine ⟨fun acts => runPanels_exclusive acts initPanelState ?_, fun st => rfl, fun st => rfl⟩
  simp [initPanelState, panelsExclusive]

/-! ### C10: seek clamping -/

/-- C10: an ArrowLeft/ArrowRight seek on the focused progress bar moves the
position by -5/+5 seconds clamped into the interval from 0 to the media
duration, so the resulting time is never negative and never beyond the
duration. -/
theorem progressSeek_clamped (d : HDir) (duration currentTime : ℚ)
    (hdur : 0 ≤ duration) :
    progressSeek .right duration currentTime = max 0 (min duration (currentTime + 5)) ∧
    progressSeek .left duration currentTime = max 0 (min duration (currentTime - 5)) ∧
    0 ≤ progressSeek d duration currentTime ∧
    progressSeek d duration currentTime ≤ duration := by
  refine ⟨rfl, by norm_num [progressSeek, seek, progressSeekOffset, sub_eq_add_neg], ?_, ?_⟩
  · exact le_max_left 0 _
  · have h1 : min duration (currentTime + progressSeekOffset d) ≤ duration := min_le_left _ _
    calc progressSeek d duration currentTime
        = max 0 (min duration (currentTime + progressSeekOffset d)) := rfl
      _ ≤ duration := max_le hdur h1

theorem progressSeek_clamped_witness :
    (0 : ℚ) ≤ 10 ∧ 0 ≤ progressSeek .right 10 7 ∧ progressSeek .right 10 7 ≤ 10 :=
  ⟨by norm_num, (progressSeek_clamped .right 10 7 (by norm_num)).2.2.1,
    (progressSeek_clamped .right 10 7 (by norm_num)).2.2.2⟩

/-! ### Helper lemmas about the timers of the key handler -/

theorem fireEnterTimer_showTvCursor (tm : ℚ) (st : AppKeyState) :
    (fireEnterTimer tm st).showTvCursor = st.showTvCursor := by
  unfold fireEnterTimer
  cases h : st.enterDeadline <;> simp [h]
  split_ifs <;> rfl

theorem fireEnterTimer_cursorX (tm : ℚ) (st : AppKeyState) :
    (fireEnterTimer tm st).cursorX = st.cursorX := by
  unfold fireEnterTimer
  cases h : st.enterDeadline <;> simp [h]
  split_ifs <;> rfl

theorem fireEnterTimer_cursorY (tm : ℚ) (st : AppKeyState) :
    (fireEnterTimer tm st).cursorY = st.cursorY := by
  unfold fireEnterTimer
  cases h : st.enterDeadline <;> simp [h]
  split_ifs <;> rfl

theorem fireClickTimer_shape (tm : ℚ) (st : AppKeyState) :
    ∃ ce cd, fireClickTimer tm st =
      ⟨st.enterPressCount, st.showTvCursor, st.enterDeadline,
        st.cursorX, st.cursorY, ce, cd⟩ := by
  obtain ⟨c0, tv, ed, cx, cy, ce0, cd0⟩ := st
  cases cd0 with
  | none => exact ⟨ce0, none, rfl⟩
  | some d =>
      by_cases hd : d ≤ tm
      · exact ⟨false, none, by simp [fireClickTimer, hd]⟩
      · exact ⟨ce0, some d, by simp [fireClickTimer, hd]⟩

theorem elapse_shape (tm : ℚ) (st : AppKeyState) :
    ∃ ce cd, elapse tm st =
      ⟨(fireEnterTimer tm st).enterPressCount, st.showTvCursor,
        (fireEnterTimer tm st).enterDeadline, st.cursorX, st.cursorY, ce, cd⟩ := by
  obtain ⟨ce, cd, h⟩ := fireClickTimer_shape tm (fireEnterTimer tm st)
  exact ⟨ce, cd, by
    rw [elapse, h, fireEnterTimer_showTvCursor, fireEnterTimer_cursorX,
      fireEnterTimer_cursorY]⟩

/-! ### Per-press step lemmas on canonical counter states -/

theorem dispatch_enter_c0 (t x y : ℚ) (a ce : Bool) (cd : Option ℚ) :
    ∃ ce2 cd2,
      (dispatchKey t .enter ⟨0, a, none, x, y, ce, cd⟩).1 =
        ⟨1, a, some (t + 500), x, y, ce2, cd2⟩ := by
  obtain ⟨ce2, cd2, h⟩ := elapse_shape t (⟨0, a, none, x, y, ce, cd⟩ : AppKeyState)
  simp only [fireEnterTimer] at h
  cases a with
  | false =>
      exact ⟨ce2, cd2, by
        simp [dispatchKey, h, keyDown, enterCountStep, Key.isArrow]⟩
  | true =>
      exact ⟨true, some (t + 400), by
        simp [dispatchKey, h, keyDown, enterCountStep, Key.isArrow]⟩

theorem dispatch_enter_fired (t lt x y : ℚ) (a ce : Bool) (cd : Option ℚ) (c : ℕ)
    (hfire : lt + 500 ≤ t) :
    ∃ ce2 cd2,
      (dispatchKey t .enter ⟨c, a, some (lt + 500), x, y, ce, cd⟩).1 =
        ⟨1, a, some (t + 500), x, y, ce2, cd2⟩ := by
  obtain ⟨ce2, cd2, h⟩ := elapse_shape t (⟨c, a, some (lt + 500), x, y, ce, cd⟩ : AppKeyState)
  simp only [fireEnterTimer, hfire, if_true] at h
  cases a with
  | false =>
      exact ⟨ce2, cd2, by
        simp [dispatchKey, h, keyDown, enterCountStep, Key.isArrow]⟩
  | true =>
      exact ⟨true, some (t + 400), by
        simp [dispatchKey, h, keyDown, enterCountStep, Key.isArrow]⟩

theorem dispatch_enter_live (t lt x y : ℚ) (a ce : Bool) (cd : Option ℚ) (c : ℕ)
    (hfire : ¬lt + 500 ≤ t) :
    ∃ ce2 cd2,
      (dispatchKey t .enter ⟨c, a, some (lt + 500), x, y, ce, cd⟩).1 =
        if c + 1 = 3 then ⟨0, true, none, x, y, ce2, cd2⟩
        else ⟨c + 1, a, some (t + 500), x, y, ce2, cd2⟩ := by
  obtain ⟨ce2, cd2, h⟩ := elapse_shape t (⟨c, a, some (lt + 500), x, y, ce, cd⟩ : AppKeyState)
  simp only [fireEnterTimer, hfire, if_false] at h
  by_cases h3 : c + 1 = 3
  · cases a with
    | false =>
        exact ⟨ce2, cd2, by
          simp [dispatchKey, h, keyDown, enterCountStep, Key.isArrow, h3]⟩
    | true =>
        exact ⟨true, some (t + 400), by
          simp [dispatchKey, h, keyDown, enterCountStep, Key.isArrow, h3]⟩
  · cases a with
    | false =>
        exact ⟨ce2, cd2, by
          simp [dispatchKey, h, keyDown, enterCountStep, Key.isArrow, h3]⟩
    | true =>
        exact ⟨true, some (t + 400), by
          simp [dispatchKey, h, keyDown, enterCountStep, Key.isArrow, h3]⟩

theorem runEnters_cons (t : ℚ) (ts : List ℚ) (st : AppKeyState) :
    runEnters (t :: ts) st = runEnters ts (dispatchKey t .enter st).1 := rfl

/-- Canonical-state invariant for sequences of Enter presses: starting from a
counter c with pending deadline lt + 500 (none when c = 0), the final armed
flag equals the already-armed flag or the arming predicate on the remaining
press times. -/
theorem runEnters_canon (ts : List ℚ) :
    ∀ (c : ℕ) (lt x y : ℚ) (a ce : Bool) (cd dl : Option ℚ),
      (c = 0 ∧ dl = none) ∨ (c < 3 ∧ c ≠ 0 ∧ dl = some (lt + 500)) →
      (runEnters ts ⟨c, a, dl, x, y, ce, cd⟩).showTvCursor
        = (a || armsFrom c lt ts) := by
  induction ts with
  | nil =>
      intro c lt x y a ce cd dl _
      simp [runEnters, armsFrom]
  | cons t rest ih =>
      intro c lt x y a ce cd dl hcanon
      rw [runEnters_cons]
      rcases hcanon with ⟨hc0, hdl⟩ | ⟨hc3, hc0, hdl⟩
      · subst hc0
        subst hdl
        obtain ⟨ce2, cd2, hstep⟩ := dispatch_enter_c0 t x y a ce cd
        rw [hstep]
        have hone := ih 1 t x y a ce2 cd2 (some (t + 500))
          (Or.inr ⟨by decide, by decide, rfl⟩)
        rw [hone]
        simp [armsFrom]
      · subst hdl
        by_cases hfire : lt + 500 ≤ t
        · obtain ⟨ce2, cd2, hstep⟩ := dispatch_enter_fired t lt x y a ce cd c hfire
          rw [hstep]
          have hone := ih 1 t x y a ce2 cd2 (some (t + 500))
            (Or.inr ⟨by decide, by decide, rfl⟩)
          rw [hone]
          have hnd : ¬t - lt < 500 := by linarith
          simp [armsFrom, hnd]
        · have hdense : t - lt < 500 := by linarith
          obtain ⟨ce2, cd2, hstep⟩ := dispatch_enter_live t lt x y a ce cd c hfire
          by_cases h3 : c + 1 = 3
          · rw [if_pos h3] at hstep
            rw [hstep]
            have hz := ih 0 t x y true ce2 cd2 none (Or.inl ⟨rfl, rfl⟩)
            rw [hz]
            simp [armsFrom, hc0, hdense, h3]
          · rw [if_neg h3] at hstep
            rw [hstep]
            have hnext := ih (c + 1) t x y a ce2 cd2 (some (t + 500))
              (Or.inr ⟨by omega, by omega, rfl⟩)
            rw [hnext]
            simp [armsFrom, hc0, hdense, h3]

/-- The arming continuation starting with one counted press equals the
dense-triple window predicate over the whole remaining sequence. -/
theorem armsFrom_one (ts : List ℚ) :
    ∀ lt : ℚ, armsFrom 1 lt ts = hasDenseTriple (lt :: ts) := by
  induction ts with
  | nil => intro lt; rfl
  | cons t rest ih =>
      intro lt
      cases rest with
      | nil =>
          by_cases hd : t - lt < 500 <;> simp [armsFrom, hasDenseTriple, hd]
      | cons u rest2 =>
          by_cases h1 : t - lt < 500
          · by_cases h2 : u - t < 500
            · simp [armsFrom, hasDenseTriple, h1, h2]
            · have hr := ih t
              simp only [armsFrom, h1, h2] at hr ⊢
              simp only [hasDenseTriple]
              simp [h1, h2, ← hr, armsFrom]
          · have hr := ih t
            simp only [armsFrom, h1] at hr ⊢
            simp only [hasDenseTriple]
            simp [h1, ← hr, armsFrom]

/-! ### C6: triple-Enter arming -/

/-- C6: for any sequence of timestamped Enter presses, cursor mode ends up
armed if and only if some three consecutive presses occur with both gaps
strictly below 500 ms (a gap of 500 ms or more lets the reset timer fire
first); in particular, presses at 0, 100, 800 and 900 ms — where the reset
timer fires before the third press — do not arm the cursor. -/
theorem triple_enter_arms_iff :
    (∀ (x y : ℚ) (ts : List ℚ),
        (runEnters ts (initAppKeyState x y)).showTvCursor = hasDenseTriple ts) ∧
    (runEnters [0, 100, 800, 900] (initAppKeyState 0 0)).showTvCursor = false := by
  have main : ∀ (x y : ℚ) (ts : List ℚ),
      (runEnters ts (initAppKeyState x y)).showTvCursor = hasDenseTriple ts := by
    intro x y ts
    have h := runEnters_canon ts 0 0 x y false false none none (Or.inl ⟨rfl, rfl⟩)
    rw [show initAppKeyState x y = (⟨0, false, none, x, y, false, none⟩ : AppKeyState)
        from rfl, h]
    cases ts with
    | nil => rfl
    | cons t rest =>
        simp only [armsFrom, Bool.false_or]
        simp [armsFrom_one rest t]
  refine ⟨main, ?_⟩
  rw [main]
  norm_num [hasDenseTriple]

/-! ### C5: Enter while cursor mode is armed -/

/-- C5 counterexample: pressing Enter while the cursor is armed (counter 0,
no pending timer) leaves the counter at 1 with a freshly started 500 ms
reset timer — the counting block runs before the armed branch — refuting the
claim that the triple-press counter and its reset timer are not advanced or
restarted by that press. -/
theorem armed_enter_advances_counter :
    (dispatchKey 1000 .enter armedExampleState).1.enterPressCount = 1 ∧
    (dispatchKey 1000 .enter armedExampleState).1.enterDeadline = some 1500 ∧
    (dispatchKey 1000 .enter armedExampleState).2 =
      ⟨some 10, some 20, true, some 400, false⟩ := by
  refine ⟨rfl, ?_, rfl⟩
  show some ((1000 : ℚ) + 500) = some 1500
  norm_num

/-- C5 (amended): an Enter press while cursor mode is armed hit-tests at the
stored cursor coordinates, activates the topmost element, starts the 400 ms
click-effect pulse, and consumes the event (no spatial navigation runs and
the cursor stays armed); however the same press still advances the
triple-press counter and restarts its 500 ms reset timer (arming again when
the counter reaches 3). -/
theorem armed_enter_behavior (now : ℚ) (st : AppKeyState)
    (h : st.showTvCursor = true) :
    (dispatchKey now .enter st).2 =
      ⟨some st.cursorX, some st.cursorY, true, some 400, false⟩ ∧
    (dispatchKey now .enter st).1.clickEffect = true ∧
    (dispatchKey now .enter st).1.clickDeadline = some (now + 400) ∧
    (dispatchKey now .enter st).1.showTvCursor = true ∧
    (dispatchKey now .enter st).1.enterPressCount =
      (if (fireEnterTimer now st).enterPressCount + 1 = 3 then 0
        else (fireEnterTimer now st).enterPressCount + 1) ∧
    (dispatchKey now .enter st).1.enterDeadline =
      (if (fireEnterTimer now st).enterPressCount + 1 = 3 then none
        else some (now + 500)) := by
  obtain ⟨ce2, cd2, hs⟩ := elapse_shape now st
  rw [h] at hs
  by_cases h3 : (fireEnterTimer now st).enterPressCount + 1 = 3 <;>
    simp [dispatchKey, hs, keyDown, enterCountStep, Key.isArrow, h3]

theorem armed_enter_behavior_witness :
    (⟨1, true, some 1200, 3, 4, false, none⟩ : AppKeyState).showTvCursor = true ∧
    (dispatchKey 900 .enter ⟨1, true, some 1200, 3, 4, false, none⟩).1.enterPressCount = 2 ∧
    (dispatchKey 900 .enter ⟨1, true, some 1200, 3, 4, false, none⟩).2.activatedTopmost = true := by
  have h := armed_enter_behavior 900 ⟨1, true, some 1200, 3, 4, false, none⟩ rfl
  refine ⟨rfl, ?_, ?_⟩
  · have h5 := h.2.2.2.2.1
    have hfe : (fireEnterTimer 900 (⟨1, true, some 1200, 3, 4, false, none⟩ :
        AppKeyState)).enterPressCount = 1 := by
      norm_num [fireEnterTimer]
    rw [hfe] at h5
    simpa using h5
  · rw [h.1]

/-! ### C4: default caption selection -/

/-- C4 counterexample: with user locale "en" and a completed batch containing
a converted track for "en", the default-selection effect leaves the selected
caption language at none instead of making "en" the selected language — the
effect only ever fires for the locale "ar". -/
theorem default_subtitle_ignores_other_locales :
    defaultSubtitleSelection "en" [⟨"en", "u", "English"⟩] none = none ∧
    defaultSubtitleSelection "en" [⟨"en", "u", "English"⟩] none ≠ some "en" := by
  constructor
  · rfl
  · intro h
    simp [defaultSubtitleSelection] at h

/-- C4 (amended): the automatic default caption selection applies only when
the user locale is "ar": with a nonempty converted batch it selects "ar"
exactly when an "ar" track was converted and otherwise selects none; for any
other locale, or an empty batch, the selected caption language is left
unchanged. -/
theorem default_subtitle_selection_amended (lang : String) (tracks : List VttTrack)
    (cur : Option String) :
    (lang = "ar" → tracks ≠ [] → (∃ tr ∈ tracks, tr.lang = "ar") →
        defaultSubtitleSelection lang tracks cur = some "ar") ∧
    (lang = "ar" → tracks ≠ [] → (∀ tr ∈ tracks, tr.lang ≠ "ar") →
        defaultSubtitleSelection lang tracks cur = none) ∧
    (lang ≠ "ar" ∨ tracks = [] → defaultSubtitleSelection lang tracks cur = cur) := by
  refine ⟨?_, ?_, ?_⟩
  · rintro hl hne ⟨tr, htr, hlang⟩
    rw [defaultSubtitleSelection, if_pos ⟨hl, hne⟩]
    have hs : (tracks.find? (fun track => track.lang = "ar")).isSome := by
      rw [List.find?_isSome]
      exact ⟨tr, htr, by simp [hlang]⟩
    obtain ⟨v, hv⟩ := Option.isSome_iff_exists.mp hs
    rw [hv]
  · intro hl hne hall
    rw [defaultSubtitleSelection, if_pos ⟨hl, hne⟩]
    have hn : tracks.find? (fun track => track.lang = "ar") = none := by
      rw [List.find?_eq_none]
      intro t ht
      simp [hall t ht]
    rw [hn]
  · intro h
    rcases h with h | h
    · rw [defaultSubtitleSelection, if_neg (by tauto)]
    · rw [defaultSubtitleSelection, if_neg (by simp [h])]

theorem default_subtitle_selection_amended_witness :
    defaultSubtitleSelection "ar" [⟨"ar", "u", "Arabic"⟩] none = some "ar" :=
  (default_subtitle_selection_amended "ar" [⟨"ar", "u", "Arabic"⟩] none).1 rfl
    (by simp) ⟨⟨"ar", "u", "Arabic"⟩, by simp, rfl⟩

/-! ### C1: fetch epoch and stale completions -/

/-- C1 counterexample: run 1 starts, run 2 starts (current epoch 2), and then
run 1's recommendations completion arrives — it is not epoch-guarded, so it
mutates the session state (the recommendations list), refuting the claim
that a stale completion mutates none of the session state. -/
theorem stale_recs_completion_mutates_state :
    (applyFetchEvent .start (applyFetchEvent .start initSessionState)).fetchCounter = 2 ∧
    (applyFetchEvent (.recsOk 1 [⟨7, true⟩])
        (applyFetchEvent .start (applyFetchEvent .start initSessionState))).recommendations
      = [⟨7, true⟩] ∧
    applyFetchEvent (.recsOk 1 [⟨7, true⟩])
        (applyFetchEvent .start (applyFetchEvent .start initSessionState))
      ≠ applyFetchEvent .start (applyFetchEvent .start initSessionState) := by
  refine ⟨rfl, rfl, ?_⟩
  intro h
  have hrec := congrArg SessionState.recommendations h
  simp [applyFetchEvent, initSessionState] at hrec

/-- C1 (amended): the fetch epoch strictly increases with every new
resolution trigger; a source-resolution completion (success or failure) or a
recommendations failure whose epoch differs from the current epoch is
discarded with no state mutation, and in a two-run interleaving only the
newer run's resolution result is applied; however the recommendations
success continuation is not epoch-guarded — it always overwrites the
recommendations list (and nothing else), even when stale. -/
theorem epoch_guard_amended :
    (∀ st : SessionState, (applyFetchEvent .start st).fetchCounter = st.fetchCounter + 1) ∧
    (∀ (st : SessionState) (e : ℕ) (links : List StreamLink)
        (subs : List SubtitleDesc) (p : String), e ≠ st.fetchCounter →
        applyFetchEvent (.streamOk e links subs p) st = st) ∧
    (∀ (st : SessionState) (e : ℕ) (msg : String), e ≠ st.fetchCounter →
        applyFetchEvent (.streamFail e msg) st = st) ∧
    (∀ (st : SessionState) (e : ℕ) (msg : String), e ≠ st.fetchCounter →
        applyFetchEvent (.recsFail e msg) st = st) ∧
    (∀ (st : SessionState) (e : ℕ) (recs : List Movie),
        (applyFetchEvent (.recsOk e recs) st).fetchCounter = st.fetchCounter ∧
        (applyFetchEvent (.recsOk e recs) st).streamLinks = st.streamLinks ∧
        (applyFetchEvent (.recsOk e recs) st).activeStreamUrl = st.activeStreamUrl ∧
        (applyFetchEvent (.recsOk e recs) st).activeQuality = st.activeQuality ∧
        (applyFetchEvent (.recsOk e recs) st).subtitles = st.subtitles ∧
        (applyFetchEvent (.recsOk e recs) st).vttTracks = st.vttTracks ∧
        (applyFetchEvent (.recsOk e recs) st).toasts = st.toasts ∧
        (applyFetchEvent (.recsOk e recs) st).isBuffering = st.isBuffering ∧
        (applyFetchEvent (.recsOk e recs) st).fetchStateLog = st.fetchStateLog ∧
        (applyFetchEvent (.recsOk e recs) st).providerLog = st.providerLog ∧
        (applyFetchEvent (.recsOk e recs) st).recommendations
          = recs.filter (·.hasBackdrop)) ∧
    ((runFetch [.start, .start, .streamOk 1 [⟨"uA", "720p"⟩] [] "pA"] initSessionState
        = runFetch [.start, .start] initSessionState) ∧
      (runFetch [.start, .start, .streamOk 1 [⟨"uA", "720p"⟩] [] "pA",
          .streamOk 2 [⟨"uB", "1080p"⟩] [] "pB"] initSessionState).activeStreamUrl
        = some "uB" ∧
      (runFetch [.start, .start, .streamOk 1 [⟨"uA", "720p"⟩] [] "pA",
          .streamOk 2 [⟨"uB", "1080p"⟩] [] "pB"] initSessionState).streamLinks
        = [⟨"uB", "1080p"⟩]) := by
  refine ⟨fun st => rfl, ?_, ?_, ?_, ?_, ?_, rfl, rfl⟩
  · intro st e links subs p h
    simp [applyFetchEvent, if_neg (Ne.symm h)]
  · intro st e msg h
    simp [applyFetchEvent, if_neg (Ne.symm h)]
  · intro st e msg h
    simp [applyFetchEvent, if_neg (Ne.symm h)]
  · intro st e recs
    refine ⟨rfl, rfl, rfl, rfl, rfl, rfl, rfl, rfl, rfl, rfl, rfl⟩
  · decide

theorem epoch_guard_amended_witness :
    (5 : ℕ) ≠ (initSessionState.fetchCounter) ∧
    applyFetchEvent (.streamOk 5 [⟨"u", "q"⟩] [] "p") initSessionState = initSessionState :=
  ⟨by decide,
    epoch_guard_amended.2.1 initSessionState 5 [⟨"u", "q"⟩] [] "p" (by decide)⟩

/-! ### C3: zero stream links -/

/-- C3 counterexample: a complete zero-links resolution run ends with
isBuffering still true — the code never clears the buffering flag on this
path (only the external fetch-state callback is reset), refuting the claim
that buffering is left cleared. -/
theorem zero_links_keeps_buffering :
    zeroLinksTrace.isBuffering = true ∧ zeroLinksTrace.toasts = [noStreamLinksMsg] := by
  constructor <;> rfl

/-- C3 (amended): a current-epoch resolution completion with zero links
appends exactly one user-visible error notification and one fetch-state-
cleared callback and changes nothing else; over the complete run no active
source is set (so the playback attach never starts), the stream-link list
stays empty, exactly one toast is raised — but the buffering flag remains
set rather than cleared. -/
theorem zero_links_amended (st : SessionState) (e : ℕ) (subs : List SubtitleDesc)
    (p : String) (h : st.fetchCounter = e) :
    applyFetchEvent (.streamOk e [] subs p) st =
      { st with
        toasts := st.toasts ++ [noStreamLinksMsg],
        fetchStateLog := st.fetchStateLog ++ [false] } ∧
    zeroLinksTrace.toasts = [noStreamLinksMsg] ∧
    zeroLinksTrace.activeStreamUrl = none ∧
    zeroLinksTrace.streamLinks = [] ∧
    zeroLinksTrace.activeQuality = none ∧
    zeroLinksTrace.fetchStateLog = [true, false] ∧
    zeroLinksTrace.isBuffering = true := by
  refine ⟨?_, rfl, rfl, rfl, rfl, rfl, rfl⟩
  simp [applyFetchEvent, if_pos h]

theorem zero_links_amended_witness :
    (initSessionState.fetchCounter = 0) ∧
    applyFetchEvent (.streamOk 0 [] [] "p") initSessionState =
      { initSessionState with
        toasts := [noStreamLinksMsg],
        fetchStateLog := [false] } :=
  ⟨rfl, (zero_links_amended initSessionState 0 [] "p" rfl).1⟩

/-! ### C7: quality switching -/

/-- C7 counterexample: switching quality while the playback position is
exactly 0 (initial time 50 supplied externally) swaps the rendition but
resumes at 50 rather than at the captured position 0 — the attach sequence
treats a captured 0 as absent and falls back to the initial time, so the new
rendition does not begin at the captured position within 0.5 s. -/
theorem quality_switch_zero_position :
    (changeQuality 50 "1080p" qExampleState).activeStreamUrl = some "u2" ∧
    (changeQuality 50 "1080p" qExampleState).timeOnSwitch = 0 ∧
    (changeQuality 50 "1080p" qExampleState).videoTime = 50 ∧
    ¬((changeQuality 50 "1080p" qExampleState).videoTime - qExampleState.videoTime
        ≤ 1 / 2) := by
  have h : changeQuality 50 "1080p" qExampleState =
      ⟨[⟨"u1", "720p"⟩, ⟨"u2", "1080p"⟩], some "u2", some "1080p", 0, 50, true⟩ := by
    decide
  rw [h]
  refine ⟨rfl, rfl, rfl, ?_⟩
  norm_num [qExampleState]

/-- C7 (amended): selecting a quality whose StreamLink exists with a URL
different from the active one captures the current position into
timeOnSwitch immediately before the URL swap and clears it immediately after
the attach sequence consumes it; when the captured position is positive the
new rendition resumes exactly there (within the 0.5 s tolerance), but a
captured position of exactly 0 resumes at the externally supplied initial
time instead; a selection whose link is missing, or whose URL equals the
active URL, changes only the requested-quality label and no playback
state. -/
theorem quality_switch_behavior (st : QState) (q : String) (t0 : ℚ) :
    (∀ l : StreamLink, st.videoPresent = true → q ≠ "" →
        st.streamLinks.find? (fun link => link.quality = q) = some l →
        some l.url ≠ st.activeStreamUrl →
        (qualityChangeEffect { st with activeQuality := some q }).timeOnSwitch
            = st.videoTime ∧
        (qualityChangeEffect { st with activeQuality := some q }).activeStreamUrl
            = some l.url ∧
        (changeQuality t0 q st).timeOnSwitch = 0 ∧
        (changeQuality t0 q st).activeStreamUrl = some l.url ∧
        (0 < st.videoTime →
          (changeQuality t0 q st).videoTime = st.videoTime ∧
          |(changeQuality t0 q st).videoTime - st.videoTime| ≤ 1 / 2) ∧
        (st.videoTime = 0 → (changeQuality t0 q st).videoTime = t0)) ∧
    (st.streamLinks.find? (fun link => link.quality = q) = none →
        changeQuality t0 q st = { st with activeQuality := some q }) ∧
    (∀ l : StreamLink, st.streamLinks.find? (fun link => link.quality = q) = some l →
        some l.url = st.activeStreamUrl →
        changeQuality t0 q st = { st with activeQuality := some q }) := by
  refine ⟨?_, ?_, ?_⟩
  · intro l hvid hq hfind hdiff
    have hne : st.streamLinks ≠ [] := by
      intro hnil
      rw [hnil] at hfind
      simp at hfind
    have hguard : ¬(q = "" ∨ st.videoPresent = false ∨ st.streamLinks = []) := by
      push_neg
      exact ⟨hq, by simp [hvid], hne⟩
    have h2 : qualityChangeEffect { st with activeQuality := some q } =
        { st with
          activeQuality := some q,
          timeOnSwitch := st.videoTime,
          activeStreamUrl := some l.url } := by
      simp only [qualityChangeEffect, hfind, if_neg hguard]
      rw [if_pos hdiff]
    have h3 : changeQuality t0 q st =
        attachEffect t0
          { st with
            activeQuality := some q,
            timeOnSwitch := st.videoTime,
            activeStreamUrl := some l.url } := by
      rw [changeQuality]
      simp only [h2]
      rw [if_pos (by simpa using hdiff)]
    have h4 : changeQuality t0 q st =
        { st with
          activeQuality := some q,
          timeOnSwitch := 0,
          activeStreamUrl := some l.url,
          videoTime := if st.videoTime > 0 then st.videoTime else t0 } := by
      rw [h3, attachEffect]
      simp [hvid]
    refine ⟨by rw [h2], by rw [h2], by rw [h4], by rw [h4], ?_, ?_⟩
    · intro hpos
      constructor
      · rw [h4]
        simp [hpos]
      · rw [h4]
        simp only [if_pos hpos]
        norm_num
    · intro hzero
      rw [h4]
      simp [hzero]
  · intro hfind
    have h2 : qualityChangeEffect { st with activeQuality := some q } =
        { st with activeQuality := some q } := by
      by_cases hguard : q = "" ∨ st.videoPresent = false ∨ st.streamLinks = []
      · simp only [qualityChangeEffect, if_pos hguard]
      · simp only [qualityChangeEffect, hfind, if_neg hguard]
    rw [changeQuality]
    simp only [h2]
    rw [if_neg (by simp)]
  · intro l hfind hsame
    have h2 : qualityChangeEffect { st with activeQuality := some q } =
        { st with activeQuality := some q } := by
      by_cases hguard : q = "" ∨ st.videoPresent = false ∨ st.streamLinks = []
      · simp only [qualityChangeEffect, if_pos hguard]
      · simp only [qualityChangeEffect, hfind, if_neg hguard]
        rw [if_neg (by simpa using hsame)]
    rw [changeQuality]
    simp only [h2]
    rw [if_neg (by simp)]

theorem quality_switch_behavior_witness :
    (changeQuality 7 "1080p"
        ⟨[⟨"u1", "720p"⟩, ⟨"u2", "1080p"⟩], some "u1", some "720p", 0, 42, true⟩).videoTime
      = 42 ∧
    (changeQuality 7 "1080p"
        ⟨[⟨"u1", "720p"⟩, ⟨"u2", "1080p"⟩], some "u1", some "720p", 0, 42, true⟩).timeOnSwitch
      = 0 := by
  have h := (quality_switch_behavior
      ⟨[⟨"u1", "720p"⟩, ⟨"u2", "1080p"⟩], some "u1", some "720p", 0, 42, true⟩
      "1080p" 7).1 ⟨"u2", "1080p"⟩ rfl (by decide)
      (by decide) (by simp)
  exact ⟨(h.2.2.2.2.1 (by norm_num)).1, h.2.2.1⟩

/-! ### C8: subtitle object-URL lifecycle -/

/-- C8: the code at the failing interleaving — a supersession arriving while
a subtitle text body is being read — creates an object URL after its
generation's cleanup has already run: the URL is never revoked, one
transient caption resource stays allocated while the latest batch is empty,
contradicting the claim that every resource is revoked exactly once and that
the allocated count never exceeds the size of the latest batch. -/
theorem subtitle_url_leak :
    leakTrace.live = [0] ∧
    leakTrace.vttTracks = [] ∧
    leakTrace.revokedLog = [] ∧
    leakTrace.vttTracks.length < leakTrace.live.length := by
  refine ⟨rfl, rfl, rfl, by decide⟩

end MediaPlayer
